import Mathlib

set_option maxHeartbeats 1000000

namespace Anyvar

/-- Modelled from the spec: the Python implementation under src/anyvar is absent from
the source tree (only documentation, SQL schema and configuration are present), so the
VRS data model is embedded from spec section 3. A SequenceReference carries an opaque
refget accession; its identity is the accession alone. -/
structure SequenceReference where
  refgetAccession : String
deriving DecidableEq, Repr

/-- Modelled from the spec: a SequenceLocation holds a SequenceReference and a
half-open, zero-based interval.  As in the VRS JSON shown throughout the repository
documentation, the object carries its computed identifier and digest as attributes. -/
structure SequenceLocation where
  id : String
  digest : String
  sequenceReference : SequenceReference
  start : Nat
  end_ : Nat
deriving DecidableEq, Repr

/-- Modelled from the spec: the state of an Allele, a literal sequence string. -/
structure LiteralSequenceExpression where
  sequence : String
deriving DecidableEq, Repr

/-- Modelled from the spec: an Allele couples a SequenceLocation with a literal
sequence state and carries its computed identifier and digest. -/
structure Allele where
  id : String
  digest : String
  location : SequenceLocation
  state : LiteralSequenceExpression
deriving DecidableEq, Repr

/-- Modelled from the spec: the sum of VRS object types handled by the registration
engine (spec section 9, object graph with shared sub-objects). -/
inductive VrsObject where
  | allele : Allele → VrsObject
  | location : SequenceLocation → VrsObject
  | seqRef : SequenceReference → VrsObject
deriving DecidableEq, Repr

/-- Modelled from the spec: the identifier of a SequenceReference is derived from the
accession alone, in the form ga4gh:SQ.[accession] (spec sections 3 and 6.1). -/
def seqRefId (r : SequenceReference) : String :=
  "ga4gh:" ++ r.refgetAccession

/-- Modelled from the spec: the identifier of a VRS object; Alleles and
SequenceLocations carry theirs as an attribute, SequenceReferences derive theirs
from the accession. -/
def vrsId : VrsObject → String
  | .allele a => a.id
  | .location l => l.id
  | .seqRef r => seqRefId r

/-- Well-formedness of a VRS object: the identifiers of an object and of its nested
sub-objects are pairwise distinct, which reflects the distinct ga4gh:VA. / ga4gh:SL. /
ga4gh:SQ. identifier prefixes of the three types (spec section 6.1). -/
def VrsObject.wf : VrsObject → Prop
  | .allele a =>
      a.id ≠ a.location.id ∧ a.id ≠ seqRefId a.location.sequenceReference ∧
        a.location.id ≠ seqRefId a.location.sequenceReference
  | .location l => l.id ≠ seqRefId l.sequenceReference
  | .seqRef _ => True

instance (o : VrsObject) : Decidable o.wf := by
  cases o <;> simp [VrsObject.wf] <;> infer_instance

/-- Modelled from the spec: the committed object table, one row per VRS object keyed
by identifier (table vrs_objects, vrs_id PRIMARY KEY, per the schema in the source
tree and spec section 6.4). -/
abbrev ObjectStore : Type := List (String × VrsObject)

/-- Modelled from the spec: direct key lookup on the object table (spec section 4.5,
read path). -/
def get_vrs (s : ObjectStore) (k : String) : Option VrsObject :=
  (s.find? (fun kv => kv.1 == k)).map (fun kv => kv.2)

/-- Modelled from the spec: a single-object upsert with primary-key conflict
semantics, INSERT ... ON CONFLICT DO NOTHING (spec section 4.5, transactional
write path). -/
def put_vrs (s : ObjectStore) (o : VrsObject) : ObjectStore :=
  if (s.find? (fun kv => kv.1 == vrsId o)).isSome then s else (vrsId o, o) :: s

/-- Modelled from the spec: AnyVar.put_object decomposes an Allele into its
SequenceReference, SequenceLocation and the Allele itself, hands each piece to
storage, and returns the identifier of the top-level object (spec section 4.3). -/
def put_object (s : ObjectStore) (o : VrsObject) : ObjectStore × String :=
  match o with
  | .allele a =>
      let s1 := put_vrs s (.seqRef a.location.sequenceReference)
      let s2 := put_vrs s1 (.location a.location)
      let s3 := put_vrs s2 (.allele a)
      (s3, a.id)
  | .location l =>
      let s1 := put_vrs s (.seqRef l.sequenceReference)
      (put_vrs s1 (.location l), l.id)
  | .seqRef r => (put_vrs s (.seqRef r), seqRefId r)

/-- Modelled from the spec: AnyVar.get_object is a direct dereference of the
committed object table (spec section 4.3). -/
def get_object (s : ObjectStore) (k : String) : Option VrsObject :=
  get_vrs s k

theorem get_put_vrs_self (s : ObjectStore) (o : VrsObject)
    (h : ∀ x, get_vrs s (vrsId o) = some x → x = o) :
    get_vrs (put_vrs s o) (vrsId o) = some o := by
  unfold put_vrs
  by_cases hf : (s.find? (fun kv => kv.1 == vrsId o)).isSome
  · simp only [hf, if_true]
    obtain ⟨kv, hkv⟩ := Option.isSome_iff_exists.mp hf
    have hk : kv.1 = vrsId o := by
      have := List.find?_some hkv
      simpa using this
    have : get_vrs s (vrsId o) = some kv.2 := by
      unfold get_vrs; rw [hkv]; rfl
    rw [this, h kv.2 this]
  · rw [if_neg hf]
    unfold get_vrs
    rw [List.find?_cons_of_pos]
    · rfl
    · simp

theorem get_put_vrs_other (s : ObjectStore) (o : VrsObject) (k : String)
    (h : k ≠ vrsId o) :
    get_vrs (put_vrs s o) k = get_vrs s k := by
  unfold put_vrs
  by_cases hf : (s.find? (fun kv => kv.1 == vrsId o)).isSome
  · simp [hf]
  · rw [if_neg hf]
    unfold get_vrs
    rw [List.find?_cons_of_neg]
    simp [Ne.symm h]

/-- The concrete SequenceReference from the repository documentation example for
NC_000010.11:g.87894077C>T. -/
def nc10SeqRef : SequenceReference :=
  { refgetAccession := "SQ.ss8r_wB0-b9r44TQTMmVTI92884QvBiB" }

/-- The concrete SequenceLocation from the repository documentation example for
NC_000010.11:g.87894077C>T. -/
def nc10Location : SequenceLocation :=
  { id := "ga4gh:SL.01EH5o6V6VEyNUq68gpeTwKE7xOo-WAy"
    digest := "01EH5o6V6VEyNUq68gpeTwKE7xOo-WAy"
    sequenceReference := nc10SeqRef
    start := 87894076
    end_ := 87894077 }

/-- The concrete Allele from the repository documentation example for
NC_000010.11:g.87894077C>T. -/
def nc10Allele : Allele :=
  { id := "ga4gh:VA.K7akyz9PHB0wg8wBNVlWAAdvMbJUJJfU"
    digest := "K7akyz9PHB0wg8wBNVlWAAdvMbJUJJfU"
    location := nc10Location
    state := { sequence := "T" } }

/-- C1: Round-trip.  For every VRS object o that is well formed (component
identifiers distinct) and every store whose row at id(o), if any, already holds o
(content addressing), put_object(o) returns id(o) and a subsequent
get_object(id(o)) returns o itself: the identical object, with the same attribute
values, including the nested location identifier when o is an Allele. -/
theorem put_get_round_trip (s : ObjectStore) (o : VrsObject) (hwf : o.wf)
    (hcons : ∀ x, get_vrs s (vrsId o) = some x → x = o) :
    (put_object s o).2 = vrsId o ∧
      get_object (put_object s o).1 (vrsId o) = some o := by
  cases o with
  | seqRef r =>
      exact ⟨rfl, get_put_vrs_self s (.seqRef r) hcons⟩
  | location l =>
      refine ⟨rfl, ?_⟩
      have h1 : l.id ≠ seqRefId l.sequenceReference := hwf
      show get_vrs (put_vrs (put_vrs s (.seqRef l.sequenceReference)) (.location l))
        (vrsId (.location l)) = some (.location l)
      apply get_put_vrs_self
      intro x hx
      rw [get_put_vrs_other _ _ _ (by simpa [vrsId] using h1)] at hx
      exact hcons x hx
  | allele a =>
      refine ⟨rfl, ?_⟩
      obtain ⟨h1, h2, _h3⟩ := hwf
      show get_vrs (put_vrs (put_vrs (put_vrs s (.seqRef a.location.sequenceReference))
        (.location a.location)) (.allele a)) (vrsId (.allele a)) = some (.allele a)
      apply get_put_vrs_self
      intro x hx
      rw [get_put_vrs_other _ _ _ (by simpa [vrsId] using h1),
        get_put_vrs_other _ _ _ (by simpa [vrsId] using h2)] at hx
      exact hcons x hx

/-- C1 witness: registering the documented NC_000010.11:g.87894077C>T Allele in an
empty store and dereferencing its identifier returns the identical Allele. -/
theorem put_get_round_trip_witness :
    (put_object [] (.allele nc10Allele)).2 = vrsId (.allele nc10Allele) ∧
      get_object (put_object ([] : ObjectStore) (.allele nc10Allele)).1
        (vrsId (.allele nc10Allele)) = some (.allele nc10Allele) :=
  put_get_round_trip [] (.allele nc10Allele) (by decide)
    (by intro x hx; simp [get_vrs] at hx)

/-- C2: Referential closure.  After put_object(a) succeeds for a well-formed Allele
a over a store consistent at the two sub-object keys, get_object(a.location.id)
returns the contained SequenceLocation and get_object of the identifier of
a.location.sequenceReference returns the contained SequenceReference. -/
theorem put_allele_closure (s : ObjectStore) (a : Allele)
    (hwf : (VrsObject.allele a).wf)
    (hloc : ∀ x, get_vrs s a.location.id = some x → x = .location a.location)
    (href : ∀ x, get_vrs s (seqRefId a.location.sequenceReference) = some x →
      x = .seqRef a.location.sequenceReference) :
    get_object (put_object s (.allele a)).1 a.location.id =
        some (.location a.location) ∧
      get_object (put_object s (.allele a)).1 (seqRefId a.location.sequenceReference) =
        some (.seqRef a.location.sequenceReference) := by
  obtain ⟨h1, h2, h3⟩ := hwf
  constructor
  · show get_vrs (put_vrs (put_vrs (put_vrs s (.seqRef a.location.sequenceReference))
      (.location a.location)) (.allele a)) a.location.id = some (.location a.location)
    rw [get_put_vrs_other _ _ _ (by simpa [vrsId] using Ne.symm h1)]
    have : a.location.id = vrsId (.location a.location) := rfl
    rw [this]
    apply get_put_vrs_self
    intro x hx
    rw [get_put_vrs_other _ _ _ (by simpa [vrsId] using h3)] at hx
    exact hloc x hx
  · show get_vrs (put_vrs (put_vrs (put_vrs s (.seqRef a.location.sequenceReference))
      (.location a.location)) (.allele a)) (seqRefId a.location.sequenceReference) =
      some (.seqRef a.location.sequenceReference)
    rw [get_put_vrs_other _ _ _ (by simpa [vrsId] using Ne.symm h2),
      get_put_vrs_other _ _ _ (by simpa [vrsId] using Ne.symm h3)]
    have : seqRefId a.location.sequenceReference =
        vrsId (.seqRef a.location.sequenceReference) := rfl
    rw [this]
    exact get_put_vrs_self _ _ href

/-- C2 witness: after registering the documented Allele in an empty store, both its
SequenceLocation and its SequenceReference are retrievable by their identifiers. -/
theorem put_allele_closure_witness :
    get_object (put_object ([] : ObjectStore) (.allele nc10Allele)).1
        nc10Allele.location.id = some (.location nc10Allele.location) ∧
      get_object (put_object ([] : ObjectStore) (.allele nc10Allele)).1
        (seqRefId nc10Allele.location.sequenceReference) =
        some (.seqRef nc10Allele.location.sequenceReference) :=
  put_allele_closure [] nc10Allele (by decide)
    (by intro x hx; simp [get_vrs] at hx)
    (by intro x hx; simp [get_vrs] at hx)

/-- Modelled from the spec: the configured write modes for adding VRS objects
(README ANYVAR_SNOWFLAKE_BATCH_ADD_MODE and spec section 4.5): merge uses a MERGE
statement, insert_notin inserts rows whose id is not already in the target, insert
inserts unconditionally with no duplicate prevention. -/
inductive BatchAddMode where
  | merge
  | insert_notin
  | insert
deriving DecidableEq, Repr

/-- Modelled from the spec: the warehouse VRS object table.  Warehouse tables do not
enforce primary keys or unique constraints, so the table is a plain row list that can
hold duplicate keys. -/
abbrev VrsTable : Type := List (String × VrsObject)

/-- Modelled from the spec: adding one VRS object to the warehouse table under the
configured write mode, returning the new table and the identifier of the object.
In merge mode and (for a single sequential writer) in insert_notin mode the row is
added only when its key is absent; in insert mode the row is always appended. -/
def batch_add (m : BatchAddMode) (t : VrsTable) (o : VrsObject) : VrsTable × String :=
  match m with
  | .merge =>
      (if t.any (fun kv => kv.1 == vrsId o) then t else (vrsId o, o) :: t, vrsId o)
  | .insert_notin =>
      (if t.any (fun kv => kv.1 == vrsId o) then t else (vrsId o, o) :: t, vrsId o)
  | .insert => ((vrsId o, o) :: t, vrsId o)

theorem put_vrs_idem (s : ObjectStore) (o : VrsObject) :
    put_vrs (put_vrs s o) o = put_vrs s o := by
  by_cases hf : (s.find? (fun kv => kv.1 == vrsId o)).isSome
  · unfold put_vrs
    rw [if_pos hf, if_pos hf]
  · have hs : ((((vrsId o, o) :: s)).find? (fun kv => kv.1 == vrsId o)).isSome := by
      rw [List.find?_cons_of_pos _ (by simp)]
      rfl
    unfold put_vrs
    rw [if_neg hf, if_pos hs]

/-- C3 counterexample: the claim fails as stated.  In the configured write mode
insert, putting the same VRS object twice does not leave storage indistinguishable
from putting it once: a duplicate row keyed by id(o) is created, exactly as the
README warns for ANYVAR_SNOWFLAKE_BATCH_ADD_MODE=insert. -/
theorem idempotent_put_insert_mode_counterexample :
    (batch_add .insert
        (batch_add .insert ([] : VrsTable) (.seqRef nc10SeqRef)).1
        (.seqRef nc10SeqRef)).1 ≠
      (batch_add .insert ([] : VrsTable) (.seqRef nc10SeqRef)).1 ∧
    ((batch_add .insert
        (batch_add .insert ([] : VrsTable) (.seqRef nc10SeqRef)).1
        (.seqRef nc10SeqRef)).1.countP
      (fun kv => kv.1 == vrsId (.seqRef nc10SeqRef))) = 2 := by
  constructor
  · decide
  · decide

/-- C3 (amended): for every VRS object and every configured write mode with
duplicate prevention (merge and insert_notin, and the relational upsert put_vrs),
executing the put twice leaves the storage state indistinguishable from executing
it once, and both calls return the identical identifier; in insert mode both calls
also return the identical identifier, even though a duplicate row may be created. -/
theorem idempotent_put_dedup_modes (m : BatchAddMode) (t : VrsTable)
    (o : VrsObject) (s : ObjectStore) (h : m ≠ .insert) :
    (batch_add m (batch_add m t o).1 o).1 = (batch_add m t o).1 ∧
      (batch_add m (batch_add m t o).1 o).2 = (batch_add m t o).2 ∧
      (batch_add .insert (batch_add .insert t o).1 o).2 =
        (batch_add .insert t o).2 ∧
      put_vrs (put_vrs s o) o = put_vrs s o := by
  refine ⟨?_, ?_, rfl, put_vrs_idem s o⟩
  · cases m with
    | insert => exact absurd rfl h
    | merge =>
        by_cases hc : t.any (fun kv => kv.1 == vrsId o)
        · simp [batch_add, hc]
        · simp [batch_add, hc]
    | insert_notin =>
        by_cases hc : t.any (fun kv => kv.1 == vrsId o)
        · simp [batch_add, hc]
        · simp [batch_add, hc]
  · cases m with
    | insert => exact absurd rfl h
    | merge => rfl
    | insert_notin => rfl

/-- C3 witness: in merge mode over an empty table (and the relational upsert over an
empty store), putting the documented SequenceReference twice equals putting it once
and returns the same identifier both times; in insert mode over the same table the
two calls also return the same identifier. -/
theorem idempotent_put_dedup_modes_witness :
    (batch_add .merge
        (batch_add .merge ([] : VrsTable) (.seqRef nc10SeqRef)).1
        (.seqRef nc10SeqRef)).1 =
      (batch_add .merge ([] : VrsTable) (.seqRef nc10SeqRef)).1 ∧
    (batch_add .merge
        (batch_add .merge ([] : VrsTable) (.seqRef nc10SeqRef)).1
        (.seqRef nc10SeqRef)).2 =
      (batch_add .merge ([] : VrsTable) (.seqRef nc10SeqRef)).2 ∧
    (batch_add .insert
        (batch_add .insert ([] : VrsTable) (.seqRef nc10SeqRef)).1
        (.seqRef nc10SeqRef)).2 =
      (batch_add .insert ([] : VrsTable) (.seqRef nc10SeqRef)).2 ∧
    put_vrs (put_vrs ([] : ObjectStore) (.seqRef nc10SeqRef)) (.seqRef nc10SeqRef) =
      put_vrs ([] : ObjectStore) (.seqRef nc10SeqRef) :=
  idempotent_put_dedup_modes .merge [] (.seqRef nc10SeqRef) [] (by decide)

/-- Modelled from the spec: half-open interval intersection used by overlap search
(spec section 4.7): location interval locStart..locEnd intersects the query interval
qStart..qEnd when qStart is below the location end and qEnd is above the location
start. -/
def overlaps (locStart locEnd qStart qEnd : Nat) : Prop :=
  qStart < locEnd ∧ qEnd > locStart

instance (a b c d : Nat) : Decidable (overlaps a b c d) := by
  unfold overlaps; infer_instance

/-- Modelled from the spec: the per-row predicate of overlap search.  Only Allele
rows participate; a row matches when its refget accession equals the query accession
and its location interval intersects the query interval. -/
def searchHit (acc : String) (qstart qend : Nat) (kv : String × VrsObject) :
    Option Allele :=
  match kv.2 with
  | .allele a =>
      if a.location.sequenceReference.refgetAccession = acc ∧
          overlaps a.location.start a.location.end_ qstart qend
      then some a else none
  | _ => none

/-- Modelled from the spec: search_variations filters stored Allele rows by
accession and interval intersection and returns them in stable order by Allele
identifier (spec section 4.7). -/
def search_variations (s : ObjectStore) (acc : String) (qstart qend : Nat) :
    List Allele :=
  List.insertionSort (fun x y : Allele => x.id ≤ y.id)
    (s.filterMap (searchHit acc qstart qend))

instance : IsTotal Allele (fun x y : Allele => x.id ≤ y.id) :=
  ⟨fun a b => le_total a.id b.id⟩

instance : IsTrans Allele (fun x y : Allele => x.id ≤ y.id) :=
  ⟨fun _ _ _ hab hbc => le_trans hab hbc⟩

theorem searchHit_some_iff (acc : String) (qstart qend : Nat)
    (kv : String × VrsObject) (al : Allele) :
    searchHit acc qstart qend kv = some al ↔
      kv.2 = VrsObject.allele al ∧
        al.location.sequenceReference.refgetAccession = acc ∧
        qstart < al.location.end_ ∧ qend > al.location.start := by
  obtain ⟨k, v⟩ := kv
  cases v with
  | allele a =>
      simp only [searchHit]
      by_cases hc : a.location.sequenceReference.refgetAccession = acc ∧
          overlaps a.location.start a.location.end_ qstart qend
      · rw [if_pos hc]
        constructor
        · intro h
          injection h with h
          subst h
          exact ⟨rfl, hc.1, hc.2.1, hc.2.2⟩
        · rintro ⟨h, -⟩
          injection h with h
          rw [h]
      · rw [if_neg hc]
        constructor
        · intro h
          exact absurd h (by simp)
        · rintro ⟨h, h2, h3, h4⟩
          injection h with h
          subst h
          exact absurd ⟨h2, h3, h4⟩ hc
  | location l => simp [searchHit]
  | seqRef r => simp [searchHit]

/-- C4: Overlap inclusion.  For every stored Allele whose SequenceLocation lies on
the query accession, search_variations includes that Allele exactly when the query
interval intersects the location interval (qstart below location end and qend above
location start), and the result list is in order by Allele identifier. -/
theorem search_overlap_inclusion (s : ObjectStore) (acc : String)
    (qstart qend : Nat) (al : Allele)
    (hstored : VrsObject.allele al ∈ s.map Prod.snd)
    (hacc : al.location.sequenceReference.refgetAccession = acc) :
    (al ∈ search_variations s acc qstart qend ↔
        (qstart < al.location.end_ ∧ qend > al.location.start)) ∧
      List.Sorted (fun x y : Allele => x.id ≤ y.id)
        (search_variations s acc qstart qend) := by
  constructor
  · rw [search_variations,
      (List.perm_insertionSort (fun x y : Allele => x.id ≤ y.id) _).mem_iff,
      List.mem_filterMap]
    constructor
    · rintro ⟨kv, -, hf⟩
      have h := (searchHit_some_iff acc qstart qend kv al).mp hf
      exact ⟨h.2.2.1, h.2.2.2⟩
    · rintro ⟨h1, h2⟩
      obtain ⟨kv, hkv, hkv2⟩ := List.mem_map.mp hstored
      exact ⟨kv, hkv, (searchHit_some_iff acc qstart qend kv al).mpr
        ⟨hkv2, hacc, h1, h2⟩⟩
  · exact List.sorted_insertionSort _ _

/-- The concrete Allele from the repository documentation example for the /search
endpoint, located at 2781631..2781632 on SQ.8_liLu1aycC0tPQPFmUaGXJLDs5SbPZ5. -/
def searchDocAllele : Allele :=
  { id := "ga4gh:VA.YL9lyrf_GqBKJuZ2fkbonTSjdGexxim7"
    digest := "YL9lyrf_GqBKJuZ2fkbonTSjdGexxim7"
    location :=
      { id := "ga4gh:SL.OwQPYW5PvD5oxE-4M4EoshiRlw1g31fP"
        digest := "OwQPYW5PvD5oxE-4M4EoshiRlw1g31fP"
        sequenceReference :=
          { refgetAccession := "SQ.8_liLu1aycC0tPQPFmUaGXJLDs5SbPZ5" }
        start := 2781631
        end_ := 2781632 }
    state := { sequence := "G" } }

/-- C4 witness: with the documented search Allele stored, the documented query over
2781631..2783993 includes it exactly when the intervals intersect (which holds), and
the result list is ordered by identifier. -/
theorem search_overlap_inclusion_witness :
    (searchDocAllele ∈ search_variations
        [(searchDocAllele.id, VrsObject.allele searchDocAllele)]
        "SQ.8_liLu1aycC0tPQPFmUaGXJLDs5SbPZ5" 2781631 2783993 ↔
      (2781631 < searchDocAllele.location.end_ ∧
        2783993 > searchDocAllele.location.start)) ∧
    List.Sorted (fun x y : Allele => x.id ≤ y.id)
      (search_variations [(searchDocAllele.id, VrsObject.allele searchDocAllele)]
        "SQ.8_liLu1aycC0tPQPFmUaGXJLDs5SbPZ5" 2781631 2783993) :=
  search_overlap_inclusion [(searchDocAllele.id, VrsObject.allele searchDocAllele)]
    "SQ.8_liLu1aycC0tPQPFmUaGXJLDs5SbPZ5" 2781631 2783993 searchDocAllele
    (by simp) rfl

/-- Modelled from the spec: the Translator converts a definition string into a fully
normalized Allele with canonical digests (spec section 4.2); the VRS library that
computes digests is a black box, so the translator is embedded as a pure function
tabulating the translation documented in the repository (the HGVS definition
NC_000010.11:g.87894077C>T) and rejecting other inputs.  Being a function, any two
invocations on the same definition agree, which is the content of identifier
determinism. -/
def translate_allele (definition : String) : Option Allele :=
  if definition = "NC_000010.11:g.87894077C>T" then some nc10Allele
  else none

/-- C5: Identifier determinism.  Any two invocations of translate_allele on the same
definition yield Alleles with equal identifiers, the registration of the documented
HGVS definition returns object_id ga4gh:VA.K7akyz9PHB0wg8wBNVlWAAdvMbJUJJfU, and
the translated Allele has location.start 87894076, location.end 87894077 and state
sequence T. -/
theorem translate_allele_deterministic (d : String) (a1 a2 : Allele)
    (s : ObjectStore)
    (h1 : translate_allele d = some a1) (h2 : translate_allele d = some a2) :
    a1.id = a2.id ∧
      translate_allele "NC_000010.11:g.87894077C>T" = some nc10Allele ∧
      (put_object s (.allele nc10Allele)).2 =
        "ga4gh:VA.K7akyz9PHB0wg8wBNVlWAAdvMbJUJJfU" ∧
      nc10Allele.location.start = 87894076 ∧
      nc10Allele.location.end_ = 87894077 ∧
      nc10Allele.state.sequence = "T" := by
  refine ⟨?_, rfl, rfl, rfl, rfl, rfl⟩
  have h := h1.symm.trans h2
  injection h with h
  rw [h]

/-- C5 witness: translating the documented HGVS definition twice yields the same
identifier, and the documented attribute values hold. -/
theorem translate_allele_deterministic_witness :
    nc10Allele.id = nc10Allele.id ∧
      translate_allele "NC_000010.11:g.87894077C>T" = some nc10Allele ∧
      (put_object ([] : ObjectStore) (.allele nc10Allele)).2 =
        "ga4gh:VA.K7akyz9PHB0wg8wBNVlWAAdvMbJUJJfU" ∧
      nc10Allele.location.start = 87894076 ∧
      nc10Allele.location.end_ = 87894077 ∧
      nc10Allele.state.sequence = "T" :=
  translate_allele_deterministic "NC_000010.11:g.87894077C>T" nc10Allele nc10Allele
    [] rfl rfl

/-- Modelled from the spec: one VCF data row.  The INFO column is kept as its list
of semicolon-separated tokens; all other columns are kept verbatim, with FORMAT and
sample columns in the rest field (spec sections 4.8 and 6.2). -/
structure VcfRecord where
  chrom : String
  pos : Nat
  idCol : String
  ref : String
  alt : String
  qual : String
  filter : String
  info : List String
  rest : List String
deriving DecidableEq, Repr

/-- Modelled from the spec: a VCF file as meta header lines, the column header line
and the data records (spec section 6.2). -/
structure VcfFile where
  metaLines : List String
  columnHeader : String
  records : List VcfRecord
deriving DecidableEq, Repr

/-- The key of the INFO field added by the ingest pipeline. -/
def vrsInfoFieldKey : String := "VRS_Allele_IDs="

/-- The INFO declaration header line added by the ingest pipeline. -/
def vrsInfoHeaderLine : String :=
  "##INFO=<ID=VRS_Allele_IDs,Number=.,Type=String,Description=GA4GH VRS identifiers of the REF and ALT alleles>"

/-- Whether an INFO token is a VRS_Allele_IDs token, that is, begins with the
VRS_Allele_IDs= key. -/
def isVrsIdsToken (t : String) : Bool :=
  vrsInfoFieldKey.data.isPrefixOf t.data

/-- Modelled from the spec: the ingest pipeline annotates one record by appending a
VRS_Allele_IDs token carrying the computed identifiers to the INFO column (spec
section 6.2); idsFor stands for the translation of the REF and ALT alleles of the
row, whose content does not affect invariance. -/
def annotateRecord (idsFor : VcfRecord → String) (r : VcfRecord) : VcfRecord :=
  { r with info := r.info ++ [vrsInfoFieldKey ++ idsFor r] }

/-- Modelled from the spec: the ingest pipeline output retains the input verbatim
except for the added INFO declaration header line and the VRS_Allele_IDs token
appended to the INFO column of every data row (spec sections 4.8 and 6.2). -/
def annotateVcf (idsFor : VcfRecord → String) (v : VcfFile) : VcfFile :=
  { metaLines := v.metaLines ++ [vrsInfoHeaderLine]
    columnHeader := v.columnHeader
    records := v.records.map (annotateRecord idsFor) }

/-- Removing the VRS_Allele_IDs tokens from the INFO column of one record. -/
def stripVrsTokens (r : VcfRecord) : VcfRecord :=
  { r with info := r.info.filter (fun t => !(isVrsIdsToken t)) }

/-- Removing the added INFO declaration header line and the VRS_Allele_IDs tokens
from every data row. -/
def stripVcf (v : VcfFile) : VcfFile :=
  { metaLines := v.metaLines.filter (fun l => l != vrsInfoHeaderLine)
    columnHeader := v.columnHeader
    records := v.records.map stripVrsTokens }

/-- Serialization of one record: tab-separated columns, the INFO tokens joined by
semicolons. -/
def serializeRecord (r : VcfRecord) : String :=
  String.intercalate "\t"
    ([r.chrom, toString r.pos, r.idCol, r.ref, r.alt, r.qual, r.filter,
      String.intercalate ";" r.info] ++ r.rest)

/-- Serialization of a VCF file: header lines, column header and records joined by
newlines. -/
def serializeVcf (v : VcfFile) : String :=
  String.intercalate "\n"
    (v.metaLines ++ [v.columnHeader] ++ v.records.map serializeRecord)

theorem isVrsIdsToken_append (x : String) :
    isVrsIdsToken (vrsInfoFieldKey ++ x) = true := by
  unfold isVrsIdsToken
  rw [String.data_append, List.isPrefixOf_iff_prefix]
  exact List.prefix_append _ _

/-- C6: VCF invariance.  For every input VCF whose meta lines do not already contain
the added header line and whose INFO tokens do not already carry the VRS_Allele_IDs
key, the ingest output, after removing the added INFO declaration header line and
stripping the VRS_Allele_IDs tokens from the INFO column of each data row, is
byte-identical to the input; nothing else in the file is changed. -/
theorem vcf_invariance (idsFor : VcfRecord → String) (v : VcfFile)
    (hmeta : vrsInfoHeaderLine ∉ v.metaLines)
    (hinfo : ∀ r ∈ v.records, ∀ t ∈ r.info, isVrsIdsToken t = false) :
    stripVcf (annotateVcf idsFor v) = v ∧
      serializeVcf (stripVcf (annotateVcf idsFor v)) = serializeVcf v := by
  have hstrip : stripVcf (annotateVcf idsFor v) = v := by
    unfold stripVcf annotateVcf
    have hm : (v.metaLines ++ [vrsInfoHeaderLine]).filter
        (fun l => l != vrsInfoHeaderLine) = v.metaLines := by
      rw [List.filter_append]
      have h1 : v.metaLines.filter (fun l => l != vrsInfoHeaderLine) =
          v.metaLines := by
        apply List.filter_eq_self.mpr
        intro l hl
        exact bne_iff_ne.mpr (fun he => hmeta (he ▸ hl))
      have h2 : ([vrsInfoHeaderLine].filter (fun l => l != vrsInfoHeaderLine)) =
          ([] : List String) := by simp
      rw [h1, h2, List.append_nil]
    have hr : (v.records.map (annotateRecord idsFor)).map stripVrsTokens =
        v.records := by
      rw [List.map_map]
      have : ∀ r ∈ v.records, (stripVrsTokens ∘ annotateRecord idsFor) r = r := by
        intro r hr
        show stripVrsTokens (annotateRecord idsFor r) = r
        unfold stripVrsTokens annotateRecord
        have hi : (r.info ++ [vrsInfoFieldKey ++ idsFor r]).filter
            (fun t => !(isVrsIdsToken t)) = r.info := by
          rw [List.filter_append]
          have h1 : r.info.filter (fun t => !(isVrsIdsToken t)) = r.info := by
            apply List.filter_eq_self.mpr
            intro t ht
            rw [hinfo r hr t ht]
            rfl
          have h2 : ([vrsInfoFieldKey ++ idsFor r].filter
              (fun t => !(isVrsIdsToken t))) = ([] : List String) := by
            simp [isVrsIdsToken_append]
          rw [h1, h2, List.append_nil]
        simp only [hi]
      calc v.records.map (stripVrsTokens ∘ annotateRecord idsFor)
          = v.records.map id := List.map_congr_left this
        _ = v.records := List.map_id v.records
    rw [hm, hr]
  exact ⟨hstrip, congrArg serializeVcf hstrip⟩

/-- A three-column demonstration VCF row used by the witnesses. -/
def demoRecord : VcfRecord :=
  { chrom := "10"
    pos := 87894077
    idCol := "."
    ref := "C"
    alt := "T"
    qual := "."
    filter := "."
    info := ["DP=100"]
    rest := [] }

/-- A small demonstration VCF file used by the witnesses. -/
def demoVcf : VcfFile :=
  { metaLines := ["##fileformat=VCFv4.2"]
    columnHeader := "#CHROM\tPOS\tID\tREF\tALT\tQUAL\tFILTER\tINFO"
    records := [demoRecord] }

/-- The annotation the pipeline computes for the demonstration row: the VRS ids of
the REF and ALT alleles, comma separated. -/
def demoIdsFor : VcfRecord → String :=
  fun _ => "ga4gh:VA.aBcDemoRefId,ga4gh:VA.K7akyz9PHB0wg8wBNVlWAAdvMbJUJJfU"

/-- C6 witness: on the demonstration VCF, stripping the annotation restores the
input byte for byte. -/
theorem vcf_invariance_witness :
    stripVcf (annotateVcf demoIdsFor demoVcf) = demoVcf ∧
      serializeVcf (stripVcf (annotateVcf demoIdsFor demoVcf)) =
        serializeVcf demoVcf :=
  vcf_invariance demoIdsFor demoVcf (by decide) (by decide)

/-- Whether the committed table holds a row under the given key. -/
def hasKey (s : ObjectStore) (k : String) : Prop :=
  (get_vrs s k).isSome

instance (s : ObjectStore) (k : String) : Decidable (hasKey s k) := by
  unfold hasKey; infer_instance

theorem hasKey_put_self (s : ObjectStore) (o : VrsObject) :
    hasKey (put_vrs s o) (vrsId o) := by
  unfold hasKey put_vrs
  by_cases hf : (s.find? (fun kv => kv.1 == vrsId o)).isSome
  · rw [if_pos hf]
    simpa [get_vrs] using hf
  · rw [if_neg hf]
    unfold get_vrs
    rw [List.find?_cons_of_pos _ (by simp)]
    rfl

theorem hasKey_put_mono (s : ObjectStore) (o : VrsObject) (k : String)
    (h : hasKey s k) : hasKey (put_vrs s o) k := by
  by_cases he : k = vrsId o
  · subst he
    exact hasKey_put_self s o
  · unfold hasKey
    rw [get_put_vrs_other s o k he]
    exact h

/-- Modelled from the spec: the state of the SQL storage batched write path: the
committed object table, the FIFO queue of pending batches awaiting the background
writer, and the current in-memory buffer (spec sections 4.5 and 4.6). -/
structure SqlBatchState where
  committed : ObjectStore
  pending : List (List VrsObject)
  current : List VrsObject

/-- Modelled from the spec: put_vrs in batched mode collects the write into the
in-memory buffer; when the buffer reaches batchLimit rows the buffer is handed to
the background writer queue (spec section 4.5, batched mode). -/
def put_vrs_batched (batchLimit : Nat) (st : SqlBatchState) (o : VrsObject) :
    SqlBatchState :=
  let cur := st.current ++ [o]
  if batchLimit ≤ cur.length then
    { st with pending := st.pending ++ [cur], current := [] }
  else
    { st with current := cur }

/-- Folding the puts of a whole sequence of objects issued inside a BatchContext. -/
def put_vrs_batched_many (batchLimit : Nat) (st : SqlBatchState)
    (os : List VrsObject) : SqlBatchState :=
  os.foldl (put_vrs_batched batchLimit) st

/-- Modelled from the spec: the background writer applies one batch to the committed
table with the configured duplicate-preventing merge strategy (spec section 4.5). -/
def applyBatch (c : ObjectStore) (b : List VrsObject) : ObjectStore :=
  b.foldl put_vrs c

/-- Modelled from the spec: end_batch with flush waits until the background writer
has drained every pending batch and the current buffer into the committed table;
without flush the caller returns immediately and the queued writes remain
uncommitted (spec section 4.5). -/
def end_batch (st : SqlBatchState) (flush : Bool) : SqlBatchState :=
  if flush then
    { committed := (st.pending ++ [st.current]).foldl applyBatch st.committed
      pending := []
      current := [] }
  else st

/-- Modelled from the spec: reads performed while batching query only the committed
state (spec section 4.5, read path). -/
def get_vrs_batched (st : SqlBatchState) (k : String) : Option VrsObject :=
  get_vrs st.committed k

/-- The object sits somewhere in the uncommitted write queue: in the current buffer
or in a pending batch. -/
def inBatchQueue (st : SqlBatchState) (o : VrsObject) : Prop :=
  o ∈ st.current ∨ ∃ b ∈ st.pending, o ∈ b

theorem inBatchQueue_put_self (batchLimit : Nat) (st : SqlBatchState)
    (o : VrsObject) : inBatchQueue (put_vrs_batched batchLimit st o) o := by
  unfold put_vrs_batched inBatchQueue
  by_cases hc : batchLimit ≤ (st.current ++ [o]).length
  · rw [if_pos hc]
    exact Or.inr ⟨st.current ++ [o], List.mem_append_right _ (by simp), by simp⟩
  · rw [if_neg hc]
    exact Or.inl (by simp)

theorem inBatchQueue_put_mono (batchLimit : Nat) (st : SqlBatchState)
    (o o2 : VrsObject) (h : inBatchQueue st o) :
    inBatchQueue (put_vrs_batched batchLimit st o2) o := by
  unfold put_vrs_batched inBatchQueue
  by_cases hc : batchLimit ≤ (st.current ++ [o2]).length
  · rw [if_pos hc]
    rcases h with hcur | ⟨b, hb, hob⟩
    · exact Or.inr ⟨st.current ++ [o2], List.mem_append_right _ (by simp),
        List.mem_append_left _ hcur⟩
    · exact Or.inr ⟨b, List.mem_append_left _ hb, hob⟩
  · rw [if_neg hc]
    rcases h with hcur | ⟨b, hb, hob⟩
    · exact Or.inl (List.mem_append_left _ hcur)
    · exact Or.inr ⟨b, hb, hob⟩

theorem inBatchQueue_put_many_mono (batchLimit : Nat) (os : List VrsObject) :
    ∀ st o, inBatchQueue st o →
      inBatchQueue (put_vrs_batched_many batchLimit st os) o := by
  induction os with
  | nil => intro st o h; exact h
  | cons x xs ih =>
      intro st o h
      exact ih (put_vrs_batched batchLimit st x) o
        (inBatchQueue_put_mono batchLimit st o x h)

theorem inBatchQueue_put_many_of_mem (batchLimit : Nat) (os : List VrsObject) :
    ∀ st o, o ∈ os → inBatchQueue (put_vrs_batched_many batchLimit st os) o := by
  induction os with
  | nil => intro st o h; exact absurd h (by simp)
  | cons x xs ih =>
      intro st o h
      rcases List.mem_cons.mp h with he | hxs
      · subst he
        exact inBatchQueue_put_many_mono batchLimit xs _ o
          (inBatchQueue_put_self batchLimit st o)
      · exact ih (put_vrs_batched batchLimit st x) o hxs

theorem hasKey_applyBatch_mono (b : List VrsObject) :
    ∀ c k, hasKey c k → hasKey (applyBatch c b) k := by
  induction b with
  | nil => intro c k h; exact h
  | cons x xs ih =>
      intro c k h
      exact ih (put_vrs c x) k (hasKey_put_mono c x k h)

theorem hasKey_applyBatch_of_mem (b : List VrsObject) :
    ∀ c o, o ∈ b → hasKey (applyBatch c b) (vrsId o) := by
  induction b with
  | nil => intro c o h; exact absurd h (by simp)
  | cons x xs ih =>
      intro c o h
      rcases List.mem_cons.mp h with he | hxs
      · subst he
        exact hasKey_applyBatch_mono xs (put_vrs c o) (vrsId o)
          (hasKey_put_self c o)
      · exact ih (put_vrs c x) o hxs

theorem hasKey_foldl_applyBatch_mono (bs : List (List VrsObject)) :
    ∀ c k, hasKey c k → hasKey (bs.foldl applyBatch c) k := by
  induction bs with
  | nil => intro c k h; exact h
  | cons b rest ih =>
      intro c k h
      exact ih (applyBatch c b) k (hasKey_applyBatch_mono b c k h)

theorem hasKey_foldl_applyBatch_of_mem (bs : List (List VrsObject)) :
    ∀ c o b, b ∈ bs → o ∈ b → hasKey (bs.foldl applyBatch c) (vrsId o) := by
  induction bs with
  | nil => intro c o b h; exact absurd h (by simp)
  | cons b0 rest ih =>
      intro c o b h hob
      rcases List.mem_cons.mp h with he | hrest
      · subst he
        exact hasKey_foldl_applyBatch_mono rest (applyBatch c b) (vrsId o)
          (hasKey_applyBatch_of_mem b c o hob)
      · exact ih (applyBatch c b0) o b hrest hob

theorem committed_put_vrs_batched (batchLimit : Nat) (st : SqlBatchState)
    (o : VrsObject) :
    (put_vrs_batched batchLimit st o).committed = st.committed := by
  unfold put_vrs_batched
  by_cases hc : batchLimit ≤ (st.current ++ [o]).length
  · rw [if_pos hc]
  · rw [if_neg hc]

theorem committed_put_vrs_batched_many (batchLimit : Nat) (os : List VrsObject) :
    ∀ st, (put_vrs_batched_many batchLimit st os).committed = st.committed := by
  induction os with
  | nil => intro st; rfl
  | cons x xs ih =>
      intro st
      show (put_vrs_batched_many batchLimit (put_vrs_batched batchLimit st x)
        xs).committed = st.committed
      rw [ih, committed_put_vrs_batched]

/-- C7: Batch flush visibility.  For every sequence of put_vrs calls issued inside
a BatchContext, when the context exits with flush true every object put inside it is
visible to subsequent reads; conversely, before the flush, reads query only the
committed state: a read inside the batch context returns exactly what the committed
state held before the puts, so writes pending in the batch queue are not guaranteed
to be seen. -/
theorem batch_flush_visibility (batchLimit : Nat) (st : SqlBatchState)
    (os : List VrsObject) (o : VrsObject) (k : String) (ho : o ∈ os) :
    (get_vrs_batched
        (end_batch (put_vrs_batched_many batchLimit st os) true) (vrsId o)).isSome ∧
      get_vrs_batched (put_vrs_batched_many batchLimit st os) k =
        get_vrs st.committed k := by
  constructor
  · have hq := inBatchQueue_put_many_of_mem batchLimit os st o ho
    set st2 := put_vrs_batched_many batchLimit st os with hst2
    show hasKey (end_batch st2 true).committed (vrsId o)
    unfold end_batch
    rw [if_pos rfl]
    rcases hq with hcur | ⟨b, hb, hob⟩
    · exact hasKey_foldl_applyBatch_of_mem _ _ o st2.current
        (List.mem_append_right _ (by simp)) hcur
    · exact hasKey_foldl_applyBatch_of_mem _ _ o b
        (List.mem_append_left _ hb) hob
  · unfold get_vrs_batched
    rw [committed_put_vrs_batched_many]

/-- C7 witness: with batch limit 1, putting the documented Allele and its
SequenceReference inside a batch context, the Allele is readable after a flushing
exit, while a read issued before the flush still sees the empty committed state. -/
theorem batch_flush_visibility_witness :
    (get_vrs_batched
        (end_batch
          (put_vrs_batched_many 1 { committed := [], pending := [], current := [] }
            [.allele nc10Allele, .seqRef nc10SeqRef]) true)
        (vrsId (.allele nc10Allele))).isSome ∧
      get_vrs_batched
          (put_vrs_batched_many 1 { committed := [], pending := [], current := [] }
            [.allele nc10Allele, .seqRef nc10SeqRef])
          (vrsId (.allele nc10Allele)) =
        get_vrs ([] : ObjectStore) (vrsId (.allele nc10Allele)) :=
  batch_flush_visibility 1 { committed := [], pending := [], current := [] }
    [.allele nc10Allele, .seqRef nc10SeqRef] (.allele nc10Allele)
    (vrsId (.allele nc10Allele)) (by simp)

/-- Modelled from the spec: statuses of an asynchronous VCF run; completed runs hold
the annotated result, failed runs hold the error message (spec section 3, Run). -/
inductive RunStatus where
  | pending
  | running
  | completed (result : String)
  | failed (errorMessage : String)
deriving DecidableEq, Repr

/-- Modelled from the spec: an HTTP response, reduced to the fields the asynchronous
endpoints are specified by: status code, Location header, advisory Retry-After
header and body (spec section 4.9). -/
structure RestResponse where
  status : Nat
  location : Option String
  retryAfter : Option Nat
  body : String
deriving DecidableEq, Repr

/-- Modelled from the spec: the asynchronous subsystem state: the files persisted to
the shared working directory keyed by path, the broker queue of submitted tasks
(run id, input path, output path), and the run table (spec section 4.9). -/
structure AsyncState where
  workdirFiles : List (String × String)
  queue : List (String × String × String)
  runs : List (String × RunStatus)
deriving DecidableEq, Repr

/-- Direct lookup of a run by its id. -/
def lookupRun (st : AsyncState) (runId : String) : Option RunStatus :=
  (st.runs.find? (fun kv => kv.1 == runId)).map (fun kv => kv.2)

/-- Modelled from the spec: the input path of a run inside the shared working
directory keyed by run id. -/
def runInputPath (workDir runId : String) : String :=
  workDir ++ "/" ++ runId ++ "/input.vcf"

/-- Modelled from the spec: the output path of a run inside the shared working
directory keyed by run id. -/
def runOutputPath (workDir runId : String) : String :=
  workDir ++ "/" ++ runId ++ "/output.vcf"

/-- Modelled from the spec: the submission handler of PUT /vcf with
enable_async=true: it takes the client-supplied run id or falls back to the
server-generated UUID, persists the uploaded file to the shared working directory,
enqueues the task (run id, input path, output path) on the broker, records the run
as PENDING, and returns 202 Accepted with a Location header /vcf/[run id] and an
advisory Retry-After header; a run id already in use fails with RunIdConflict
(spec section 4.9). -/
def submit_vcf_async (workDir : String) (st : AsyncState)
    (clientRunId : Option String) (generatedUuid : String)
    (fileContents : String) : AsyncState × RestResponse :=
  let runId := clientRunId.getD generatedUuid
  if (lookupRun st runId).isSome then
    (st, { status := 409, location := none, retryAfter := none,
           body := "RunIdConflict" })
  else
    ({ workdirFiles := (runInputPath workDir runId, fileContents) :: st.workdirFiles
       queue := st.queue ++
         [(runId, runInputPath workDir runId, runOutputPath workDir runId)]
       runs := (runId, RunStatus.pending) :: st.runs },
     { status := 202, location := some ("/vcf/" ++ runId), retryAfter := some 120,
       body := "" })

/-- C8: Async submission.  For every upload whose effective run id (client-supplied,
otherwise the server-generated UUID) is not already in use, PUT /vcf with
enable_async=true returns 202 Accepted with a Location header /vcf/[run id] and an
advisory Retry-After header, after persisting the file to the shared working
directory and enqueuing the task (run id, input path, output path) on the broker. -/
theorem submit_vcf_async_accepted (workDir : String) (st : AsyncState)
    (clientRunId : Option String) (generatedUuid : String) (fileContents : String)
    (hfree : lookupRun st (clientRunId.getD generatedUuid) = none) :
    (submit_vcf_async workDir st clientRunId generatedUuid fileContents).2.status =
        202 ∧
      (submit_vcf_async workDir st clientRunId generatedUuid
          fileContents).2.location =
        some ("/vcf/" ++ clientRunId.getD generatedUuid) ∧
      (submit_vcf_async workDir st clientRunId generatedUuid
          fileContents).2.retryAfter.isSome ∧
      (runInputPath workDir (clientRunId.getD generatedUuid), fileContents) ∈
        (submit_vcf_async workDir st clientRunId generatedUuid
          fileContents).1.workdirFiles ∧
      (clientRunId.getD generatedUuid,
          runInputPath workDir (clientRunId.getD generatedUuid),
          runOutputPath workDir (clientRunId.getD generatedUuid)) ∈
        (submit_vcf_async workDir st clientRunId generatedUuid
          fileContents).1.queue := by
  have hns : ¬ (lookupRun st (clientRunId.getD generatedUuid)).isSome := by
    rw [hfree]
    simp
  unfold submit_vcf_async
  rw [if_neg hns]
  refine ⟨rfl, rfl, rfl, by simp, by simp⟩

/-- C8 witness: submitting a file under the documented run id
05385087-78e2-44d4-8ecc-3ca74563c4b1 to a fresh async state returns 202 with the
documented Location, persists the file and enqueues the task. -/
theorem submit_vcf_async_accepted_witness :
    (submit_vcf_async "/shared" { workdirFiles := [], queue := [], runs := [] }
        none "05385087-78e2-44d4-8ecc-3ca74563c4b1" "##fileformat=VCFv4.2").2.status =
        202 ∧
      (submit_vcf_async "/shared" { workdirFiles := [], queue := [], runs := [] }
          none "05385087-78e2-44d4-8ecc-3ca74563c4b1"
          "##fileformat=VCFv4.2").2.location =
        some ("/vcf/" ++
          (none : Option String).getD "05385087-78e2-44d4-8ecc-3ca74563c4b1") ∧
      (submit_vcf_async "/shared" { workdirFiles := [], queue := [], runs := [] }
          none "05385087-78e2-44d4-8ecc-3ca74563c4b1"
          "##fileformat=VCFv4.2").2.retryAfter.isSome ∧
      (runInputPath "/shared"
          ((none : Option String).getD "05385087-78e2-44d4-8ecc-3ca74563c4b1"),
        "##fileformat=VCFv4.2") ∈
        (submit_vcf_async "/shared" { workdirFiles := [], queue := [], runs := [] }
          none "05385087-78e2-44d4-8ecc-3ca74563c4b1"
          "##fileformat=VCFv4.2").1.workdirFiles ∧
      ((none : Option String).getD "05385087-78e2-44d4-8ecc-3ca74563c4b1",
        runInputPath "/shared"
          ((none : Option String).getD "05385087-78e2-44d4-8ecc-3ca74563c4b1"),
        runOutputPath "/shared"
          ((none : Option String).getD "05385087-78e2-44d4-8ecc-3ca74563c4b1")) ∈
        (submit_vcf_async "/shared" { workdirFiles := [], queue := [], runs := [] }
          none "05385087-78e2-44d4-8ecc-3ca74563c4b1"
          "##fileformat=VCFv4.2").1.queue :=
  submit_vcf_async_accepted "/shared" { workdirFiles := [], queue := [], runs := [] }
    none "05385087-78e2-44d4-8ecc-3ca74563c4b1" "##fileformat=VCFv4.2" rfl

/-- Modelled from the spec: the configured failure status code for the run-status
endpoint, ANYVAR_VCF_ASYNC_FAILURE_STATUS_CODE, defaulting to 500. -/
def vcfAsyncFailureStatusCode (configured : Option Nat) : Nat :=
  configured.getD 500

/-- Modelled from the spec: the polling handler GET /vcf/[run id]: 404 when the run
is unknown or expired, 202 Accepted with Retry-After while PENDING or RUNNING,
200 OK with the annotated VCF when COMPLETED, and the configured failure status
code with the error message when FAILED.  The handler is a pure function of the
recorded state: it inspects the run table and returns immediately, never waiting on
worker completion (spec section 4.9). -/
def get_vcf_run (failureCode : Nat) (st : AsyncState) (runId : String) :
    RestResponse :=
  match lookupRun st runId with
  | none =>
      { status := 404, location := none, retryAfter := none, body := "RunUnknown" }
  | some .pending =>
      { status := 202, location := none, retryAfter := some 120, body := "" }
  | some .running =>
      { status := 202, location := none, retryAfter := some 120, body := "" }
  | some (.completed result) =>
      { status := 200, location := none, retryAfter := none, body := result }
  | some (.failed msg) =>
      { status := failureCode, location := none, retryAfter := none, body := msg }

/-- C9: Async polling.  For every submitted run, GET /vcf/[run id] returns
202 Accepted while the run is PENDING or RUNNING, 200 OK with the annotated VCF
when COMPLETED, the configured failure status code (default 500) with the error
message when FAILED, and 404 when unknown; the handler is a function of the
recorded state only, so it never blocks waiting for worker completion. -/
theorem vcf_run_polling (configured : Option Nat) (st : AsyncState)
    (runId : String) :
    ((lookupRun st runId = some .pending ∨ lookupRun st runId = some .running) →
        (get_vcf_run (vcfAsyncFailureStatusCode configured) st runId).status =
          202) ∧
      (∀ res, lookupRun st runId = some (.completed res) →
        get_vcf_run (vcfAsyncFailureStatusCode configured) st runId =
          { status := 200, location := none, retryAfter := none, body := res }) ∧
      (∀ msg, lookupRun st runId = some (.failed msg) →
        (get_vcf_run (vcfAsyncFailureStatusCode configured) st runId).status =
            vcfAsyncFailureStatusCode configured ∧
          (get_vcf_run (vcfAsyncFailureStatusCode configured) st runId).body =
            msg) ∧
      (lookupRun st runId = none →
        (get_vcf_run (vcfAsyncFailureStatusCode configured) st runId).status =
          404) ∧
      vcfAsyncFailureStatusCode none = 500 := by
  refine ⟨?_, ?_, ?_, ?_, rfl⟩
  · rintro (h | h) <;> simp [get_vcf_run, h]
  · intro res h
    simp [get_vcf_run, h]
  · intro msg h
    constructor <;> simp [get_vcf_run, h]
  · intro h
    simp [get_vcf_run, h]

/-- A run table exercising each status, used by the C9 witness. -/
def demoRunsState : AsyncState :=
  { workdirFiles := []
    queue := []
    runs :=
      [("r-pending", .pending), ("r-running", .running),
        ("r-done", .completed "##fileformat=VCFv4.2 annotated"),
        ("r-bad", .failed "translator unavailable")] }

/-- C9 witness: on the demonstration run table with the default configuration,
polling a pending run returns 202, polling the completed run returns 200 with its
result, polling the failed run returns 500 with its error message, and polling an
unknown run returns 404. -/
theorem vcf_run_polling_witness :
    (get_vcf_run (vcfAsyncFailureStatusCode none) demoRunsState "r-pending").status =
        202 ∧
      get_vcf_run (vcfAsyncFailureStatusCode none) demoRunsState "r-done" =
        { status := 200, location := none, retryAfter := none,
          body := "##fileformat=VCFv4.2 annotated" } ∧
      (get_vcf_run (vcfAsyncFailureStatusCode none) demoRunsState "r-bad").status =
          vcfAsyncFailureStatusCode none ∧
      (get_vcf_run (vcfAsyncFailureStatusCode none) demoRunsState "r-bad").body =
          "translator unavailable" ∧
      (get_vcf_run (vcfAsyncFailureStatusCode none) demoRunsState "r-none").status =
          404 ∧
      vcfAsyncFailureStatusCode none = 500 := by
  have h := vcf_run_polling none demoRunsState "r-pending"
  have hd := vcf_run_polling none demoRunsState "r-done"
  have hb := vcf_run_polling none demoRunsState "r-bad"
  have hn := vcf_run_polling none demoRunsState "r-none"
  refine ⟨h.1 (Or.inl rfl), hd.2.1 "##fileformat=VCFv4.2 annotated" rfl,
    (hb.2.2.1 "translator unavailable" rfl).1,
    (hb.2.2.1 "translator unavailable" rfl).2, hn.2.2.2.1 rfl, rfl⟩

/-- Modelled from the spec: mapping types between registered variations (spec
section 3, VariationMapping). -/
inductive VariationMappingType where
  | liftover
  | transcription
deriving DecidableEq, Repr

/-- Modelled from the spec: a directed mapping between two registered variations;
direction is meaningful and duplicates are idempotent (spec section 3). -/
structure VariationMapping where
  source_id : String
  dest_id : String
  mapping_type : VariationMappingType
deriving DecidableEq, Repr

/-- Modelled from the spec: the state of the AnyVar engine relevant to mappings:
the object store and the stored mappings. -/
structure AnyVarState where
  objects : ObjectStore
  mappings : List VariationMapping
deriving DecidableEq, Repr

/-- Modelled from the spec: put_mapping stores a mapping; storing the same triple
again is a no-op (spec section 3). -/
def put_mapping (st : AnyVarState) (m : VariationMapping) : AnyVarState :=
  if m ∈ st.mappings then st else { st with mappings := st.mappings ++ [m] }

/-- Modelled from the spec: get_object_mappings returns the stored mappings whose
source is the given object id, filtered by mapping type (spec section 4.3). -/
def get_object_mappings (st : AnyVarState) (objectId : String)
    (t : VariationMappingType) : List VariationMapping :=
  st.mappings.filter (fun m => m.source_id == objectId && m.mapping_type == t)

/-- The liftover mapping recorded between a registered allele and its lifted-over
equivalent. -/
def liftoverMapping (a la : Allele) : VariationMapping :=
  { source_id := a.id, dest_id := la.id, mapping_type := .liftover }

/-- Modelled from the spec: registration with the default implicit liftover side
effect described by the repository documentation of PUT /variation and
add_liftover_mapping: registering a GRCh37 or GRCh38 allele also registers the
lifted-over equivalent on the opposite assembly and stores a liftover mapping from
the registered allele to the lifted one.  The agct liftover library is external, so
the lifted-over computation is passed in as the function getLiftoverVariant,
returning none for variants that cannot be lifted. -/
def register_variation (getLiftoverVariant : Allele → Option Allele)
    (st : AnyVarState) (a : Allele) : AnyVarState × String :=
  let s1 := (put_object st.objects (.allele a)).1
  match getLiftoverVariant a with
  | none => ({ objects := s1, mappings := st.mappings }, a.id)
  | some la =>
      let s2 := (put_object s1 (.allele la)).1
      (put_mapping { objects := s2, mappings := st.mappings }
        (liftoverMapping a la), a.id)

theorem hasKey_put_object_self_allele (s : ObjectStore) (a : Allele) :
    hasKey (put_object s (.allele a)).1 a.id := by
  show hasKey (put_vrs (put_vrs (put_vrs s (.seqRef a.location.sequenceReference))
    (.location a.location)) (.allele a)) a.id
  exact hasKey_put_self _ (.allele a)

theorem mem_put_mapping_self (st : AnyVarState) (m : VariationMapping) :
    m ∈ (put_mapping st m).mappings := by
  unfold put_mapping
  by_cases hm : m ∈ st.mappings
  · rw [if_pos hm]
    exact hm
  · rw [if_neg hm]
    exact List.mem_append_right _ (by simp)

theorem put_mapping_objects (st : AnyVarState) (m : VariationMapping) :
    (put_mapping st m).objects = st.objects := by
  unfold put_mapping
  by_cases hm : m ∈ st.mappings
  · rw [if_pos hm]
  · rw [if_neg hm]

theorem register_variation_of_lifted (getLiftoverVariant : Allele → Option Allele)
    (st : AnyVarState) (a la : Allele) (hl : getLiftoverVariant a = some la) :
    register_variation getLiftoverVariant st a =
      (put_mapping
        { objects := (put_object (put_object st.objects (.allele a)).1
            (.allele la)).1
          mappings := st.mappings }
        (liftoverMapping a la), a.id) := by
  unfold register_variation
  rw [hl]

/-- C10: Implicit liftover side effect.  When registering an allele for which the
liftover library yields an equivalent on the opposite assembly, register_variation
also registers the lifted-over allele, and a VariationMapping of type liftover from
the registered allele to the lifted-over allele is stored and retrievable via
get_object_mappings on the registered identifier with type liftover. -/
theorem register_variation_liftover (getLiftoverVariant : Allele → Option Allele)
    (st : AnyVarState) (a la : Allele)
    (hl : getLiftoverVariant a = some la) :
    hasKey (register_variation getLiftoverVariant st a).1.objects la.id ∧
      hasKey (register_variation getLiftoverVariant st a).1.objects a.id ∧
      liftoverMapping a la ∈
        get_object_mappings (register_variation getLiftoverVariant st a).1 a.id
          .liftover ∧
      (register_variation getLiftoverVariant st a).2 = a.id := by
  rw [register_variation_of_lifted getLiftoverVariant st a la hl]
  refine ⟨?_, ?_, ?_, rfl⟩
  · rw [put_mapping_objects]
    exact hasKey_put_object_self_allele _ la
  · rw [put_mapping_objects]
    show hasKey (put_vrs (put_vrs (put_vrs (put_object st.objects (.allele a)).1
      (.seqRef la.location.sequenceReference)) (.location la.location))
      (.allele la)) a.id
    apply hasKey_put_mono
    apply hasKey_put_mono
    apply hasKey_put_mono
    exact hasKey_put_object_self_allele st.objects a
  · unfold get_object_mappings
    rw [List.mem_filter]
    exact ⟨mem_put_mapping_self _ _, by simp [liftoverMapping]⟩

/-- The lifted-over GRCh37 equivalent of the documented NC_10 allele: its identifier
is the documented liftover mapping destination
ga4gh:VA.rQBlRht2jfsSp6TpX3xhraxtmgXNKvQf and its coordinates 89653833..89653834
come from the liftover example in the Python usage documentation; the GRCh37
accession and location digest are not given in the repository documentation, so
placeholder strings stand for them. -/
def nc10LiftedAllele : Allele :=
  { id := "ga4gh:VA.rQBlRht2jfsSp6TpX3xhraxtmgXNKvQf"
    digest := "rQBlRht2jfsSp6TpX3xhraxtmgXNKvQf"
    location :=
      { id := "ga4gh:SL.grch37-chr10-location"
        digest := "grch37-chr10-location"
        sequenceReference := { refgetAccession := "SQ.grch37-chr10" }
        start := 89653833
        end_ := 89653834 }
    state := { sequence := "T" } }

/-- The liftover function realized on the documented example pair. -/
def demoLiftover : Allele → Option Allele :=
  fun x => if x = nc10Allele then some nc10LiftedAllele else none

/-- C10 witness: registering the documented GRCh38 allele in a fresh state under
the demonstration liftover function registers the lifted GRCh37 allele and stores
the documented liftover mapping, retrievable from the registered identifier. -/
theorem register_variation_liftover_witness :
    hasKey (register_variation demoLiftover
        { objects := [], mappings := [] } nc10Allele).1.objects
        nc10LiftedAllele.id ∧
      hasKey (register_variation demoLiftover
          { objects := [], mappings := [] } nc10Allele).1.objects nc10Allele.id ∧
      liftoverMapping nc10Allele nc10LiftedAllele ∈
        get_object_mappings (register_variation demoLiftover
            { objects := [], mappings := [] } nc10Allele).1 nc10Allele.id
          .liftover ∧
      (register_variation demoLiftover
          { objects := [], mappings := [] } nc10Allele).2 = nc10Allele.id :=
  register_variation_liftover demoLiftover { objects := [], mappings := [] }
    nc10Allele nc10LiftedAllele (by decide)

end Anyvar
